import Mathlib

/-!
Shallow embedding of `src/app/livebot/lib/audio-streamer.ts` (class
`AudioStreamer`).

Modelling conventions:
* a byte of a `Uint8Array` chunk is a `Fin 256`;
* `Float32Array` sample values are modelled as `ℚ`: every value produced by
  the decoder is `int16 / 32768`, which is exactly representable in a 32-bit
  float, so rational arithmetic is exact for this program;
* the `AudioContext` clock is an explicit `now : ℚ` argument to every
  operation that reads `this.context.currentTime`;
* `AudioBufferSourceNode` objects are identified by the order of their
  creation (`nextSourceId` is a ghost counter); an `onended` property that is
  set to the completion closure is modelled by membership of the source id in
  `attachedHandlers` (assigning `null` removes it);
* the single `setInterval` poll timer stored in `checkInterval` is modelled by
  a flag, and the fire-and-forget `setTimeout` re-arm timers (whose handles
  the source never stores) by the counter `pendingTimeouts`;
* `submissions` and `framesPushed` are ghost histories of, respectively, every
  `source.start(startTime)` call and every frame ever pushed onto
  `this.audioQueue`; `completeCount` counts the `this.onComplete()` calls;
* gain-node operations (`linearRampToValueAtTime`, the delayed gain-graph
  rebuild in `stop`) and the `source.connect`/worklet fan-out are device-side
  effects with no influence on the state the claims talk about; they are not
  modelled.
-/

/-- One byte of an input `Uint8Array` chunk. -/
abbrev Byte := Fin 256

/-- Constant `this.bufferSize = 7680`: samples per frame. -/
def bufferSize : ℕ := 7680

/-- Constant `this.sampleRate = 24000`. -/
def sampleRate : ℚ := 24000

/-- Constant `this.initialBufferTime = 0.1`. -/
def initialBufferTime : ℚ := 1 / 10

/-- Constant `SCHEDULE_AHEAD_TIME = 0.2` in `scheduleNextBuffer`. -/
def SCHEDULE_AHEAD_TIME : ℚ := 1 / 5

/-- The read `dataView.getInt16(off, true)` on a little-endian pair of bytes:
the unsigned value `b0 + 256 * b1` reinterpreted as a signed 16-bit
integer. -/
def int16OfLE (b0 b1 : Byte) : ℤ :=
  let u : ℕ := b0.val + 256 * b1.val
  if u < 32768 then (u : ℤ) else (u : ℤ) - 65536

/-- The read `dataView.getInt16(off, true)` including its bounds check: `none` models
the `RangeError` thrown when `off + 1` is outside the view (the source
catches it). The `DataView` is taken over exactly the chunk's bytes. -/
def getInt16LE (chunk : List Byte) (off : ℕ) : Option ℤ :=
  match chunk.get? off, chunk.get? (off + 1) with
  | some b0, some b1 => some (int16OfLE b0 b1)
  | _, _ => none

/-- The decode loop of `addPCM16`: `float32Array` has
`ToIndex(chunk.length / 2) = ⌊chunk.length / 2⌋` slots; slot `i` receives
`dataView.getInt16(i * 2, true) / 32768`, and a `RangeError` from the
out-of-range access is caught, leaving the slot at its default `0`
(for `i < ⌊chunk.length / 2⌋` the access is always in range). -/
def decodePCM16 (chunk : List Byte) : List ℚ :=
  (List.range (chunk.length / 2)).map fun i =>
    match getInt16LE chunk (2 * i) with
    | some v => (v : ℚ) / 32768
    | none => 0

/-- The `while (this.processingBuffer.length >= this.bufferSize)` slicing
loop of `addPCM16`, written with an explicit fuel argument; each iteration
removes `bufferSize ≥ 1` samples, so `buf.length` iterations always
suffice. Returns (frames pushed, remaining processing buffer). -/
def sliceFramesF : ℕ → List ℚ → List (List ℚ) × List ℚ
  | 0, buf => ([], buf)
  | fuel + 1, buf =>
    if bufferSize ≤ buf.length then
      let r := sliceFramesF fuel (buf.drop bufferSize)
      (buf.take bufferSize :: r.1, r.2)
    else ([], buf)

/-- The slicing loop at its adequate fuel. -/
def sliceFrames (buf : List ℚ) : List (List ℚ) × List ℚ :=
  sliceFramesF buf.length buf

/-- One `source.start(startTime)` call recorded by the ghost submission
history. -/
structure Submission where
  sourceId : ℕ
  startTime : ℚ
  samples : List ℚ
deriving DecidableEq

/-- The mutable fields of an `AudioStreamer`, plus ghost history fields
(`nextSourceId`, `submissions`, `framesPushed`, `completeCount`). -/
structure AudioStreamer where
  audioQueue : List (List ℚ)
  isPlaying : Bool
  processingBuffer : List ℚ
  scheduledTime : ℚ
  isStreamComplete : Bool
  checkInterval : Bool
  pendingTimeouts : ℕ
  endOfQueueAudioSource : Option ℕ
  attachedHandlers : Finset ℕ
  nextSourceId : ℕ
  submissions : List Submission
  framesPushed : List (List ℚ)
  completeCount : ℕ
deriving DecidableEq

/-- The state right after the constructor runs. -/
def initState : AudioStreamer :=
  { audioQueue := []
    isPlaying := false
    processingBuffer := []
    scheduledTime := 0
    isStreamComplete := false
    checkInterval := false
    pendingTimeouts := 0
    endOfQueueAudioSource := none
    attachedHandlers := ∅
    nextSourceId := 0
    submissions := []
    framesPushed := []
    completeCount := 0 }

/-- The value `audioBuffer.duration` for a frame: sample count over the sample rate. -/
def frameDuration (samples : List ℚ) : ℚ := (samples.length : ℚ) / sampleRate

/-- The end-of-queue arming block in `scheduleNextBuffer`:
`if (this.endOfQueueAudioSource) this.endOfQueueAudioSource.onended = null;`
then `this.endOfQueueAudioSource = source; source.onended = <closure>`. -/
def armMarker (id : ℕ) (s : AudioStreamer) : AudioStreamer :=
  let detached :=
    match s.endOfQueueAudioSource with
    | some p => s.attachedHandlers.erase p
    | none => s.attachedHandlers
  { s with endOfQueueAudioSource := some id
           attachedHandlers := insert id detached }

/-- One iteration body of the `while` loop of `scheduleNextBuffer`, after
the dequeue (`audioData` is the shifted frame, `rest` the queue after the
shift): create a fresh source, arm the end-of-queue marker if the queue is
now empty, compute `startTime = max(this.scheduledTime, this.context.currentTime)`,
start the source (recorded in `submissions`), and advance the cursor by the
buffer duration. -/
def drainIter (now : ℚ) (audioData : List ℚ) (rest : List (List ℚ))
    (s : AudioStreamer) : AudioStreamer :=
  let src := s.nextSourceId
  let s1 := { s with audioQueue := rest, nextSourceId := src + 1 }
  let s2 := if rest.isEmpty then armMarker src s1 else s1
  let startTime := max s2.scheduledTime now
  { s2 with
    submissions := s2.submissions ++
      [{ sourceId := src, startTime := startTime, samples := audioData }]
    scheduledTime := startTime + frameDuration audioData }

/-- The `while` loop of `scheduleNextBuffer`, with explicit fuel; each
iteration dequeues exactly one frame, so `audioQueue.length` iterations
always suffice. -/
def drainLoopF : ℕ → ℚ → AudioStreamer → AudioStreamer
  | 0, _, s => s
  | fuel + 1, now, s =>
    match s.audioQueue with
    | [] => s
    | audioData :: rest =>
      if s.scheduledTime < now + SCHEDULE_AHEAD_TIME then
        drainLoopF fuel now (drainIter now audioData rest s)
      else s

/-- Method `scheduleNextBuffer`: the drain loop followed by the re-arm logic
(deactivate and clear the poll interval when complete and fully drained,
arm the poll interval when starved, otherwise arm a one-shot `setTimeout`
whose handle is never stored). -/
def scheduleNextBuffer (now : ℚ) (s : AudioStreamer) : AudioStreamer :=
  let s1 := drainLoopF s.audioQueue.length now s
  if s1.audioQueue.length = 0 ∧ s1.processingBuffer.length = 0 then
    if s1.isStreamComplete then
      { s1 with isPlaying := false, checkInterval := false }
    else if s1.checkInterval then s1
    else { s1 with checkInterval := true }
  else
    { s1 with pendingTimeouts := s1.pendingTimeouts + 1 }

/-- The `onended` closure of the currently or formerly armed end-of-queue
source, as delivered by the device for source `id`: it runs only if the
closure is still attached (`onended` was not reset to `null`), and fires
`onComplete` only if the queue is empty and the identity check
`this.endOfQueueAudioSource === source` passes. -/
def handleOnEnded (id : ℕ) (s : AudioStreamer) : AudioStreamer :=
  if id ∈ s.attachedHandlers ∧ s.audioQueue = [] ∧
      s.endOfQueueAudioSource = some id then
    { s with endOfQueueAudioSource := none
             completeCount := s.completeCount + 1 }
  else s

/-- The decode-and-assemble part of `addPCM16`: decode the chunk, append to
`processingBuffer`, slice off full frames onto `audioQueue` (also recorded
in the ghost `framesPushed` history). -/
def assemble (chunk : List Byte) (s : AudioStreamer) : AudioStreamer :=
  let samples := decodePCM16 chunk
  let sliced := sliceFrames (s.processingBuffer ++ samples)
  { s with processingBuffer := sliced.2
           audioQueue := s.audioQueue ++ sliced.1
           framesPushed := s.framesPushed ++ sliced.1 }

/-- The `if (!this.isPlaying)` activation block of `addPCM16`. -/
def activate (now : ℚ) (s : AudioStreamer) : AudioStreamer :=
  { s with isPlaying := true, scheduledTime := now + initialBufferTime }

/-- Method `addPCM16(chunk)`. -/
def addPCM16 (now : ℚ) (chunk : List Byte) (s : AudioStreamer) :
    AudioStreamer :=
  let s1 := assemble chunk s
  if s1.isPlaying then s1 else scheduleNextBuffer now (activate now s1)

/-- Method `stop()`: the state mutations (the gain fade and the delayed gain-graph
rebuild are device-side only).  Note it does not touch
`endOfQueueAudioSource`, the attached `onended` closures, or the pending
`setTimeout` re-arm callbacks (whose handles were never stored). -/
def stop (now : ℚ) (s : AudioStreamer) : AudioStreamer :=
  { s with isPlaying := false
           isStreamComplete := true
           audioQueue := []
           processingBuffer := []
           scheduledTime := now
           checkInterval := false }

/-- Method `resume()`: the state mutations (`context.resume()` and the gain
restore are device-side). -/
def resume (now : ℚ) (s : AudioStreamer) : AudioStreamer :=
  { s with isStreamComplete := false
           scheduledTime := now + initialBufferTime }

/-- The queue/history mutations of the non-empty branch of `complete()`:
push the remainder as one final frame and clear it
(`isStreamComplete` was set just before). -/
def completeFlush (s : AudioStreamer) : AudioStreamer :=
  { s with isStreamComplete := true
           audioQueue := s.audioQueue ++ [s.processingBuffer]
           framesPushed := s.framesPushed ++ [s.processingBuffer]
           processingBuffer := [] }

/-- Method `complete()`. -/
def complete (now : ℚ) (s : AudioStreamer) : AudioStreamer :=
  if 0 < s.processingBuffer.length then
    let s2 := completeFlush s
    if s2.isPlaying then scheduleNextBuffer now s2 else s2
  else
    { s with isStreamComplete := true, completeCount := s.completeCount + 1 }

/-- The external re-entries that drive the streamer: the public operations,
the two timer callbacks, and the device's `onended` notification for a
given source. -/
inductive Event where
  | addPCM16 (now : ℚ) (chunk : List Byte)
  | complete (now : ℚ)
  | stop (now : ℚ)
  | resume (now : ℚ)
  | pollFire (now : ℚ)
  | timeoutFire (now : ℚ)
  | sourceEnded (id : ℕ)
deriving DecidableEq

/-- One external re-entry.  `pollFire` is the `setInterval` callback (it
runs only while the interval is armed, and itself checks for new data);
`timeoutFire` is one of the fire-and-forget `setTimeout` re-arm callbacks. -/
def step (e : Event) (s : AudioStreamer) : AudioStreamer :=
  match e with
  | .addPCM16 now chunk => addPCM16 now chunk s
  | .complete now => complete now s
  | .stop now => stop now s
  | .resume now => resume now s
  | .pollFire now =>
    if s.checkInterval then
      if 0 < s.audioQueue.length ∨ bufferSize ≤ s.processingBuffer.length
      then scheduleNextBuffer now s
      else s
    else s
  | .timeoutFire now =>
    if 0 < s.pendingTimeouts then
      scheduleNextBuffer now { s with pendingTimeouts := s.pendingTimeouts - 1 }
    else s
  | .sourceEnded id => handleOnEnded id s

/-- Run a sequence of events from a given state. -/
def runFrom (s : AudioStreamer) : List Event → AudioStreamer
  | [] => s
  | e :: evs => runFrom (step e s) evs

/-- Run a sequence of events from the freshly constructed streamer. -/
def run (evs : List Event) : AudioStreamer := runFrom initState evs

/-- All samples decoded over a trace, in arrival order. -/
def decodedOf : List Event → List ℚ
  | [] => []
  | Event.addPCM16 _ chunk :: evs => decodePCM16 chunk ++ decodedOf evs
  | _ :: evs => decodedOf evs

/-- Whether an event is a `stop()` call. -/
def isStopEvent : Event → Bool
  | .stop _ => true
  | _ => false

/-- The chain shape of the submissions produced by one drain invocation:
each start time is `max (cursor so far) now`, and the cursor advances past
the submitted frame. -/
def SubChain : ℚ → ℚ → List Submission → Prop
  | _, _, [] => True
  | cursor, now, sub :: rest =>
    sub.startTime = max cursor now ∧
    SubChain (sub.startTime + frameDuration sub.samples) now rest

/-- The conserved quantity: the samples ever framed plus the samples still
in the Remainder Buffer, in order. -/
def framedOrBuffered (s : AudioStreamer) : List ℚ :=
  s.framesPushed.flatten ++ s.processingBuffer

/-- Every source id recorded in the marker field or carrying a live
`onended` closure was created earlier than the next fresh id. -/
def MarkerInv (s : AudioStreamer) : Prop :=
  (∀ p, s.endOfQueueAudioSource = some p → p < s.nextSourceId) ∧
  (∀ q ∈ s.attachedHandlers, q < s.nextSourceId)

/-- The states an `AudioStreamer` can actually be in: everything generated
from the constructor state by external re-entries. -/
inductive Reachable : AudioStreamer → Prop where
  | init : Reachable initState
  | next (e : Event) {s : AudioStreamer} : Reachable s → Reachable (step e s)

/-!  ### The worklet registry (`addWorklet`)  -/

/-- A `WorkletGraph` record: its ordered handler list, and the node handle
(absent until the module load succeeds and the node is constructed). -/
structure WorkletGraphM where
  handlers : List ℕ
  node : Option ℕ
deriving DecidableEq

/-- The per-context `registeredWorklets` record: name-keyed, insertion
ordered. -/
abbrev WorkletRegistry := List (String × WorkletGraphM)

/-- The lookup `workletsRecord[workletName]`. -/
def lookupWorklet (reg : WorkletRegistry) (name : String) : Option WorkletGraphM :=
  match reg with
  | [] => none
  | (n, g) :: rest => if n = name then some g else lookupWorklet rest name

/-- Assignment `workletsRecord[workletName] = g` when the key exists. -/
def updateWorklet (reg : WorkletRegistry) (name : String) (g : WorkletGraphM) :
    WorkletRegistry :=
  match reg with
  | [] => []
  | (n, g0) :: rest =>
    if n = name then (n, g) :: rest else (n, g0) :: updateWorklet rest name g

/-- Method `addWorklet(workletName, workletSrc, handler)`: if the name is already
registered, append the handler and return; otherwise create the record
entry FIRST (`workletsRecord[workletName] = { handlers: [handler] }`), then
attempt the module load/instantiation; on failure the error is re-raised
(first component `true`) and the entry remains, node-less; on success the
node handle is stored.  `loadFails` is the environment's choice of whether
`audioWorklet.addModule`/node construction throws; `freshNode` the handle
when it succeeds. -/
def addWorklet (reg : WorkletRegistry) (name : String) (handler : ℕ)
    (loadFails : Bool) (freshNode : ℕ) : Bool × WorkletRegistry :=
  match lookupWorklet reg name with
  | some g =>
    (false, updateWorklet reg name { g with handlers := g.handlers ++ [handler] })
  | none =>
    let reg1 := reg ++ [(name, { handlers := [handler], node := none })]
    if loadFails then (true, reg1)
    else (false, updateWorklet reg1 name
      { handlers := [handler], node := some freshNode })

def stoppedWithMarker : AudioStreamer :=
  { initState with
      endOfQueueAudioSource := some 0
      attachedHandlers := {0} }

/-!  ### Lemmas about the frame slicer  -/

theorem sliceFramesF_flatten (fuel : ℕ) (buf : List ℚ) :
    (sliceFramesF fuel buf).1.flatten ++ (sliceFramesF fuel buf).2 = buf := by
  induction fuel generalizing buf with
  | zero => simp [sliceFramesF]
  | succ n ih =>
    rw [sliceFramesF]
    by_cases h : bufferSize ≤ buf.length
    · simp only [if_pos h, List.flatten_cons, List.append_assoc, ih]
      exact List.take_append_drop _ _
    · simp [if_neg h]

theorem sliceFramesF_frame_len (fuel : ℕ) (buf : List ℚ) (f : List ℚ)
    (hf : f ∈ (sliceFramesF fuel buf).1) : f.length = bufferSize := by
  induction fuel generalizing buf with
  | zero => simp [sliceFramesF] at hf
  | succ n ih =>
    rw [sliceFramesF] at hf
    by_cases h : bufferSize ≤ buf.length
    · rw [if_pos h] at hf
      rcases List.mem_cons.mp hf with h1 | h1
      · subst h1; exact List.length_take_of_le h
      · exact ih _ h1
    · simp [if_neg h] at hf

theorem sliceFramesF_small (fuel : ℕ) (buf : List ℚ)
    (h : buf.length < bufferSize) : sliceFramesF fuel buf = ([], buf) := by
  cases fuel with
  | zero => rfl
  | succ n => rw [sliceFramesF, if_neg (by omega)]

theorem sliceFramesF_rem_lt (fuel : ℕ) (buf : List ℚ)
    (hfuel : buf.length ≤ fuel) : (sliceFramesF fuel buf).2.length < bufferSize := by
  induction fuel generalizing buf with
  | zero =>
    have : buf.length = 0 := Nat.le_zero.mp hfuel
    simp [sliceFramesF, this, bufferSize]
  | succ n ih =>
    rw [sliceFramesF]
    by_cases h : bufferSize ≤ buf.length
    · rw [if_pos h]
      exact ih _ (by simp only [List.length_drop, bufferSize] at h ⊢; omega)
    · rw [if_neg h]
      show buf.length < bufferSize
      omega

theorem sliceFrames_flatten (buf : List ℚ) :
    (sliceFrames buf).1.flatten ++ (sliceFrames buf).2 = buf :=
  sliceFramesF_flatten _ _

theorem sliceFrames_rem_lt (buf : List ℚ) :
    (sliceFrames buf).2.length < bufferSize :=
  sliceFramesF_rem_lt _ _ le_rfl

theorem sliceFrames_exact (buf : List ℚ) (h : buf.length = bufferSize) :
    sliceFrames buf = ([buf], []) := by
  have h1 : buf.length ≤ bufferSize := le_of_eq h
  unfold sliceFrames
  rw [h]
  rw [show bufferSize = 7679 + 1 from rfl, sliceFramesF,
    if_pos (by omega)]
  rw [sliceFramesF_small _ _ (by simp only [List.length_drop, h]; simp [bufferSize])]
  simp [List.take_of_length_le h1, List.drop_eq_nil_iff.mpr h1]

theorem sliceFrames_one (buf : List ℚ) (k : ℕ) (h : buf.length = bufferSize + k)
    (hk : k < bufferSize) :
    sliceFrames buf = ([buf.take bufferSize], buf.drop bufferSize) := by
  unfold sliceFrames
  rw [h]
  rw [show bufferSize + k = (bufferSize + k - 1) + 1 from by omega, sliceFramesF,
    if_pos (by omega)]
  rw [sliceFramesF_small _ _ (by simp only [List.length_drop, h]; omega)]

/-!  ### Lemmas about the drain loop  -/

theorem frameDuration_nonneg (samples : List ℚ) : 0 ≤ frameDuration samples := by
  unfold frameDuration sampleRate
  positivity

theorem drainIter_basic (now : ℚ) (a : List ℚ) (rest : List (List ℚ))
    (s : AudioStreamer) :
    (drainIter now a rest s).audioQueue = rest ∧
    (drainIter now a rest s).processingBuffer = s.processingBuffer ∧
    (drainIter now a rest s).framesPushed = s.framesPushed ∧
    (drainIter now a rest s).isPlaying = s.isPlaying ∧
    (drainIter now a rest s).isStreamComplete = s.isStreamComplete ∧
    (drainIter now a rest s).checkInterval = s.checkInterval ∧
    (drainIter now a rest s).pendingTimeouts = s.pendingTimeouts ∧
    (drainIter now a rest s).completeCount = s.completeCount ∧
    (drainIter now a rest s).nextSourceId = s.nextSourceId + 1 := by
  unfold drainIter armMarker
  split <;>
    exact ⟨rfl, rfl, rfl, rfl, rfl, rfl, rfl, rfl, rfl⟩

theorem drainIter_submissions (now : ℚ) (a : List ℚ) (rest : List (List ℚ))
    (s : AudioStreamer) :
    (drainIter now a rest s).submissions = s.submissions ++
      [{ sourceId := s.nextSourceId, startTime := max s.scheduledTime now,
         samples := a }] ∧
    (drainIter now a rest s).scheduledTime =
      max s.scheduledTime now + frameDuration a := by
  unfold drainIter armMarker
  split <;> exact ⟨rfl, rfl⟩

theorem drainLoopF_pres (fuel : ℕ) (now : ℚ) (s : AudioStreamer) :
    (drainLoopF fuel now s).processingBuffer = s.processingBuffer ∧
    (drainLoopF fuel now s).framesPushed = s.framesPushed ∧
    (drainLoopF fuel now s).isPlaying = s.isPlaying ∧
    (drainLoopF fuel now s).isStreamComplete = s.isStreamComplete ∧
    (drainLoopF fuel now s).checkInterval = s.checkInterval ∧
    (drainLoopF fuel now s).pendingTimeouts = s.pendingTimeouts ∧
    (drainLoopF fuel now s).completeCount = s.completeCount := by
  induction fuel generalizing s with
  | zero => exact ⟨rfl, rfl, rfl, rfl, rfl, rfl, rfl⟩
  | succ n ih =>
    rw [drainLoopF]
    cases hq : s.audioQueue with
    | nil => exact ⟨rfl, rfl, rfl, rfl, rfl, rfl, rfl⟩
    | cons a rest =>
      dsimp only
      by_cases hc : s.scheduledTime < now + SCHEDULE_AHEAD_TIME
      · rw [if_pos hc]
        obtain ⟨p1, p2, p3, p4, p5, p6, p7⟩ := ih (drainIter now a rest s)
        obtain ⟨_, q2, q3, q4, q5, q6, q7, q8, _⟩ := drainIter_basic now a rest s
        exact ⟨p1.trans q2, p2.trans q3, p3.trans q4, p4.trans q5,
          p5.trans q6, p6.trans q7, p7.trans q8⟩
      · rw [if_neg hc]
        exact ⟨rfl, rfl, rfl, rfl, rfl, rfl, rfl⟩

theorem drainLoopF_cursor_mono (fuel : ℕ) (now : ℚ) (s : AudioStreamer) :
    s.scheduledTime ≤ (drainLoopF fuel now s).scheduledTime := by
  induction fuel generalizing s with
  | zero => exact le_rfl
  | succ n ih =>
    rw [drainLoopF]
    cases hq : s.audioQueue with
    | nil => exact le_rfl
    | cons a rest =>
      dsimp only
      by_cases hc : s.scheduledTime < now + SCHEDULE_AHEAD_TIME
      · rw [if_pos hc]
        refine le_trans ?_ (ih (drainIter now a rest s))
        rw [(drainIter_submissions now a rest s).2]
        have := frameDuration_nonneg a
        have := le_max_left s.scheduledTime now
        linarith
      · rw [if_neg hc]

theorem SubChain_start_ge (now : ℚ) :
    ∀ (ns : List Submission) (cursor : ℚ), SubChain cursor now ns →
      ∀ sub ∈ ns, now ≤ sub.startTime := by
  intro ns
  induction ns with
  | nil => intro cursor _ sub hsub; simp at hsub
  | cons a rest ih =>
    intro cursor hchain sub hsub
    rcases List.mem_cons.mp hsub with h | h
    · subst h
      rw [hchain.1]
      exact le_max_right _ _
    · exact ih _ hchain.2 sub h

theorem drainLoopF_chain (fuel : ℕ) (now : ℚ) (s : AudioStreamer) :
    ∃ ns, (drainLoopF fuel now s).submissions = s.submissions ++ ns ∧
      SubChain s.scheduledTime now ns := by
  induction fuel generalizing s with
  | zero => exact ⟨[], by simp [drainLoopF], trivial⟩
  | succ n ih =>
    rw [drainLoopF]
    cases hq : s.audioQueue with
    | nil => exact ⟨[], by simp, trivial⟩
    | cons a rest =>
      dsimp only
      by_cases hc : s.scheduledTime < now + SCHEDULE_AHEAD_TIME
      · rw [if_pos hc]
        obtain ⟨ns, hsub, hchain⟩ := ih (drainIter now a rest s)
        obtain ⟨hs, hcur⟩ := drainIter_submissions now a rest s
        refine ⟨Submission.mk s.nextSourceId (max s.scheduledTime now) a :: ns, ?_, ?_⟩
        · rw [hsub, hs, List.append_assoc]
          rfl
        · exact ⟨rfl, by rw [← hcur]; exact hchain⟩
      · rw [if_neg hc]
        exact ⟨[], by simp, trivial⟩

/-!  ### Lemmas about `scheduleNextBuffer` as a whole  -/

theorem scheduleNextBuffer_pres (now : ℚ) (s : AudioStreamer) :
    (scheduleNextBuffer now s).processingBuffer = s.processingBuffer ∧
    (scheduleNextBuffer now s).framesPushed = s.framesPushed ∧
    (scheduleNextBuffer now s).completeCount = s.completeCount ∧
    (scheduleNextBuffer now s).isStreamComplete = s.isStreamComplete ∧
    (scheduleNextBuffer now s).scheduledTime =
      (drainLoopF s.audioQueue.length now s).scheduledTime ∧
    (scheduleNextBuffer now s).submissions =
      (drainLoopF s.audioQueue.length now s).submissions ∧
    (scheduleNextBuffer now s).endOfQueueAudioSource =
      (drainLoopF s.audioQueue.length now s).endOfQueueAudioSource ∧
    (scheduleNextBuffer now s).attachedHandlers =
      (drainLoopF s.audioQueue.length now s).attachedHandlers ∧
    (scheduleNextBuffer now s).nextSourceId =
      (drainLoopF s.audioQueue.length now s).nextSourceId := by
  obtain ⟨p1, p2, p3, p4, p5, p6, p7⟩ := drainLoopF_pres s.audioQueue.length now s
  unfold scheduleNextBuffer
  dsimp only
  split_ifs <;>
    exact ⟨p1, p2, p7, p4, rfl, rfl, rfl, rfl, rfl⟩

theorem scheduleNextBuffer_chain (now : ℚ) (s : AudioStreamer) :
    ∃ ns, (scheduleNextBuffer now s).submissions = s.submissions ++ ns ∧
      SubChain s.scheduledTime now ns := by
  obtain ⟨ns, h1, h2⟩ := drainLoopF_chain s.audioQueue.length now s
  exact ⟨ns, ((scheduleNextBuffer_pres now s).2.2.2.2.2.1).trans h1, h2⟩

theorem scheduleNextBuffer_cursor_mono (now : ℚ) (s : AudioStreamer) :
    s.scheduledTime ≤ (scheduleNextBuffer now s).scheduledTime := by
  rw [(scheduleNextBuffer_pres now s).2.2.2.2.1]
  exact drainLoopF_cursor_mono _ _ _

/-!  ### Sample conservation machinery  -/

theorem assemble_conserves (chunk : List Byte) (s : AudioStreamer) :
    framedOrBuffered (assemble chunk s) =
      framedOrBuffered s ++ decodePCM16 chunk := by
  unfold framedOrBuffered assemble
  dsimp only
  rw [List.flatten_append, List.append_assoc,
    sliceFrames_flatten (s.processingBuffer ++ decodePCM16 chunk),
    List.append_assoc]

theorem scheduleNextBuffer_conserves (now : ℚ) (s : AudioStreamer) :
    framedOrBuffered (scheduleNextBuffer now s) = framedOrBuffered s := by
  unfold framedOrBuffered
  rw [(scheduleNextBuffer_pres now s).1, (scheduleNextBuffer_pres now s).2.1]

theorem addPCM16_conserves (now : ℚ) (chunk : List Byte) (s : AudioStreamer) :
    framedOrBuffered (addPCM16 now chunk s) =
      framedOrBuffered s ++ decodePCM16 chunk := by
  unfold addPCM16
  dsimp only
  split
  · exact assemble_conserves chunk s
  · rw [scheduleNextBuffer_conserves]
    show framedOrBuffered { assemble chunk s with
      isPlaying := true, scheduledTime := now + initialBufferTime } = _
    unfold framedOrBuffered
    exact assemble_conserves chunk s

theorem complete_conserves (now : ℚ) (s : AudioStreamer) :
    framedOrBuffered (complete now s) = framedOrBuffered s := by
  unfold complete
  dsimp only
  split
  · split
    · rw [scheduleNextBuffer_conserves]
      unfold framedOrBuffered completeFlush
      simp
    · unfold framedOrBuffered completeFlush
      simp
  · rfl

theorem handleOnEnded_conserves (id : ℕ) (s : AudioStreamer) :
    framedOrBuffered (handleOnEnded id s) = framedOrBuffered s := by
  unfold framedOrBuffered handleOnEnded
  split <;> rfl

theorem step_conserves (e : Event) (s : AudioStreamer)
    (hns : isStopEvent e = false) :
    framedOrBuffered (step e s) = framedOrBuffered s ++ decodedOf [e] := by
  cases e with
  | addPCM16 now chunk =>
    show framedOrBuffered (addPCM16 now chunk s) = _
    rw [addPCM16_conserves]
    simp [decodedOf]
  | complete now =>
    show framedOrBuffered (complete now s) = _
    rw [complete_conserves]
    simp [decodedOf]
  | stop now => simp [isStopEvent] at hns
  | resume now =>
    show framedOrBuffered (resume now s) = _
    simp [decodedOf, framedOrBuffered, resume]
  | pollFire now =>
    show framedOrBuffered (if s.checkInterval = true then _ else s) = _
    simp only [decodedOf, List.append_nil]
    split
    · split
      · exact scheduleNextBuffer_conserves now s
      · rfl
    · rfl
  | timeoutFire now =>
    simp only [step, decodedOf, List.append_nil]
    split
    · rw [scheduleNextBuffer_conserves]
      rfl
    · rfl
  | sourceEnded id =>
    show framedOrBuffered (handleOnEnded id s) = _
    rw [handleOnEnded_conserves]
    simp [decodedOf]

theorem decodedOf_cons_other (e : Event) (evs : List Event)
    (h : ∀ now chunk, e ≠ Event.addPCM16 now chunk) :
    decodedOf (e :: evs) = decodedOf evs := by
  cases e with
  | addPCM16 now chunk => exact absurd rfl (h now chunk)
  | complete now => rfl
  | stop now => rfl
  | resume now => rfl
  | pollFire now => rfl
  | timeoutFire now => rfl
  | sourceEnded id => rfl

theorem runFrom_conserves (evs : List Event) :
    ∀ s : AudioStreamer, (∀ e ∈ evs, isStopEvent e = false) →
      framedOrBuffered (runFrom s evs) = framedOrBuffered s ++ decodedOf evs := by
  induction evs with
  | nil => intro s _; simp [runFrom, decodedOf]
  | cons e evs ih =>
    intro s hns
    have he : isStopEvent e = false := hns e (List.mem_cons_self e evs)
    have hrest : ∀ e' ∈ evs, isStopEvent e' = false :=
      fun e' h => hns e' (List.mem_cons_of_mem e h)
    rw [runFrom, ih _ hrest, step_conserves e s he]
    cases e with
    | addPCM16 now chunk =>
      simp [decodedOf]
    | complete now => simp [decodedOf]
    | stop now => simp [decodedOf]
    | resume now => simp [decodedOf]
    | pollFire now => simp [decodedOf]
    | timeoutFire now => simp [decodedOf]
    | sourceEnded id => simp [decodedOf]

/-!  ### End-of-queue marker machinery  -/

theorem drainLoopF_queue_nil (fuel : ℕ) (now : ℚ) (s : AudioStreamer)
    (h : s.audioQueue = []) : drainLoopF fuel now s = s := by
  cases fuel with
  | zero => rfl
  | succ n => rw [drainLoopF, h]

theorem drainIter_rest_empty (now : ℚ) (a : List ℚ) (rest : List (List ℚ))
    (s : AudioStreamer) (h : rest.isEmpty = true) :
    (drainIter now a rest s).endOfQueueAudioSource = some s.nextSourceId ∧
    (∀ q ∈ (drainIter now a rest s).attachedHandlers,
      q = s.nextSourceId ∨ q ∈ s.attachedHandlers) ∧
    (∀ p, s.endOfQueueAudioSource = some p → p ≠ s.nextSourceId →
      p ∉ (drainIter now a rest s).attachedHandlers) := by
  unfold drainIter armMarker
  dsimp only
  rw [if_pos h]
  refine ⟨rfl, ?_, ?_⟩
  · intro q hq
    rcases Finset.mem_insert.mp hq with h1 | h1
    · exact Or.inl h1
    · cases hm : s.endOfQueueAudioSource with
      | none => rw [hm] at h1; exact Or.inr h1
      | some p => rw [hm] at h1; exact Or.inr (Finset.mem_of_mem_erase h1)
  · intro p hp hne hmem
    rw [hp] at hmem
    rcases Finset.mem_insert.mp hmem with h1 | h1
    · exact hne h1
    · exact absurd h1 (Finset.not_mem_erase p _)

theorem drainIter_rest_nonempty (now : ℚ) (a : List ℚ) (rest : List (List ℚ))
    (s : AudioStreamer) (h : rest.isEmpty = false) :
    (drainIter now a rest s).endOfQueueAudioSource = s.endOfQueueAudioSource ∧
    (drainIter now a rest s).attachedHandlers = s.attachedHandlers := by
  unfold drainIter armMarker
  dsimp only
  rw [if_neg (by simp [h])]
  exact ⟨rfl, rfl⟩

theorem drainIter_markerInv (now : ℚ) (a : List ℚ) (rest : List (List ℚ))
    (s : AudioStreamer) (h : MarkerInv s) :
    MarkerInv (drainIter now a rest s) := by
  have hnext := (drainIter_basic now a rest s).2.2.2.2.2.2.2.2
  cases hre : rest.isEmpty with
  | true =>
    obtain ⟨h1, h2, _⟩ := drainIter_rest_empty now a rest s hre
    constructor
    · intro p hp
      rw [h1] at hp
      injection hp with hp
      omega
    · intro q hq
      rcases h2 q hq with h3 | h3
      · omega
      · have := h.2 q h3
        omega
  | false =>
    obtain ⟨h1, h2⟩ := drainIter_rest_nonempty now a rest s hre
    constructor
    · intro p hp
      rw [h1] at hp
      have := h.1 p hp
      omega
    · intro q hq
      rw [h2] at hq
      have := h.2 q hq
      omega

theorem drainLoopF_markerInv (fuel : ℕ) (now : ℚ) (s : AudioStreamer)
    (h : MarkerInv s) : MarkerInv (drainLoopF fuel now s) := by
  induction fuel generalizing s with
  | zero => exact h
  | succ n ih =>
    rw [drainLoopF]
    cases hq : s.audioQueue with
    | nil => exact h
    | cons a rest =>
      dsimp only
      by_cases hc : s.scheduledTime < now + SCHEDULE_AHEAD_TIME
      · rw [if_pos hc]
        exact ih _ (drainIter_markerInv now a rest s h)
      · rw [if_neg hc]
        exact h

theorem scheduleNextBuffer_markerInv (now : ℚ) (s : AudioStreamer)
    (h : MarkerInv s) : MarkerInv (scheduleNextBuffer now s) := by
  obtain ⟨hm, ha⟩ := drainLoopF_markerInv s.audioQueue.length now s h
  obtain ⟨-, -, -, -, -, -, q7, q8, q9⟩ := scheduleNextBuffer_pres now s
  exact ⟨fun p hp => q9 ▸ hm p (q7 ▸ hp), fun q hq => q9 ▸ ha q (q8 ▸ hq)⟩

/-- The key supersession property of one drain invocation: if a marker was
armed before the drain, then afterwards either it is still the armed marker,
or a different submission has superseded it and its `onended` hook has been
detached. -/
theorem drainLoopF_supersede (fuel : ℕ) (now : ℚ) (s : AudioStreamer)
    (p : ℕ) (hm : s.endOfQueueAudioSource = some p) (hinv : MarkerInv s) :
    (drainLoopF fuel now s).endOfQueueAudioSource = some p ∨
    (p ∉ (drainLoopF fuel now s).attachedHandlers ∧
      ∃ q, (drainLoopF fuel now s).endOfQueueAudioSource = some q ∧ q ≠ p) := by
  induction fuel generalizing s with
  | zero => exact Or.inl hm
  | succ n ih =>
    rw [drainLoopF]
    cases hq : s.audioQueue with
    | nil => exact Or.inl hm
    | cons a rest =>
      dsimp only
      by_cases hc : s.scheduledTime < now + SCHEDULE_AHEAD_TIME
      · rw [if_pos hc]
        cases hre : rest.isEmpty with
        | true =>
          have hnil : (drainIter now a rest s).audioQueue = [] := by
            rw [(drainIter_basic now a rest s).1]
            exact List.isEmpty_iff.mp hre
          rw [drainLoopF_queue_nil n now _ hnil]
          obtain ⟨h1, _, h3⟩ := drainIter_rest_empty now a rest s hre
          have hplt : p < s.nextSourceId := hinv.1 p hm
          refine Or.inr ⟨h3 p hm (by omega), s.nextSourceId, h1, by omega⟩
        | false =>
          obtain ⟨h1, h2⟩ := drainIter_rest_nonempty now a rest s hre
          exact ih (drainIter now a rest s) (h1.trans hm)
            (drainIter_markerInv now a rest s hinv)
      · rw [if_neg hc]
        exact Or.inl hm

theorem step_markerInv (e : Event) (s : AudioStreamer) (h : MarkerInv s) :
    MarkerInv (step e s) := by
  cases e with
  | addPCM16 now chunk =>
    show MarkerInv (addPCM16 now chunk s)
    unfold addPCM16
    dsimp only
    have hasm : MarkerInv (assemble chunk s) := h
    split
    · exact hasm
    · exact scheduleNextBuffer_markerInv now _ hasm
  | complete now =>
    show MarkerInv (complete now s)
    unfold complete
    dsimp only
    split
    · split
      · exact scheduleNextBuffer_markerInv now _ h
      · exact h
    · exact h
  | stop now => exact h
  | resume now => exact h
  | pollFire now =>
    show MarkerInv (if s.checkInterval = true then _ else s)
    split
    · split
      · exact scheduleNextBuffer_markerInv now s h
      · exact h
    · exact h
  | timeoutFire now =>
    show MarkerInv (if 0 < s.pendingTimeouts then _ else s)
    split
    · exact scheduleNextBuffer_markerInv now _ h
    · exact h
  | sourceEnded id =>
    show MarkerInv (handleOnEnded id s)
    unfold handleOnEnded
    split
    · refine ⟨?_, h.2⟩
      intro p hp
      exact absurd hp (by simp)
    · exact h

theorem reachable_markerInv (s : AudioStreamer) (h : Reachable s) :
    MarkerInv s := by
  induction h with
  | init =>
    constructor
    · intro p hp
      simp [initState] at hp
    · intro q hq
      simp [initState] at hq
  | next e hr ih => exact step_markerInv e _ ih

theorem sliceFrames_small (buf : List ℚ) (h : buf.length < bufferSize) :
    sliceFrames buf = ([], buf) :=
  sliceFramesF_small _ _ h

/-- What `addPCM16` does to the assembler state, for any activation state:
the frames pushed during the call and the new Remainder Buffer are exactly
the slicer output on the old Remainder Buffer extended by the decoded
chunk. -/
theorem addPCM16_assembled (now : ℚ) (chunk : List Byte) (s : AudioStreamer) :
    (addPCM16 now chunk s).framesPushed =
      s.framesPushed ++ (sliceFrames (s.processingBuffer ++ decodePCM16 chunk)).1 ∧
    (addPCM16 now chunk s).processingBuffer =
      (sliceFrames (s.processingBuffer ++ decodePCM16 chunk)).2 := by
  unfold addPCM16
  dsimp only
  split
  · exact ⟨rfl, rfl⟩
  · obtain ⟨p1, p2, -⟩ := scheduleNextBuffer_pres now (activate now (assemble chunk s))
    exact ⟨p2.trans rfl, p1.trans rfl⟩

/-!  ### The claims  -/

/-- Claim C1 (sample conservation): over every trace of external re-entries
with no `stop()` call, the concatenation of all Frames ever pushed onto the
Playback Queue followed by the current Remainder Buffer equals the
concatenation of the decoded samples of all chunks fed via `addPCM16`, in
order (so no decoded sample is lost, duplicated, or placed into more than
one Frame); in particular the total decoded sample count equals the sum of
the lengths of all Frames ever pushed plus the current Remainder Buffer
length.  `complete()` calls are allowed anywhere in the trace, covering the
"complete() possibly called at the end" case. -/
theorem C1_sample_conservation (evs : List Event)
    (hns : ∀ e ∈ evs, isStopEvent e = false) :
    (run evs).framesPushed.flatten ++ (run evs).processingBuffer
      = decodedOf evs ∧
    ((run evs).framesPushed.map List.length).sum
        + (run evs).processingBuffer.length
      = (decodedOf evs).length := by
  have h := runFrom_conserves evs initState hns
  have h0 : framedOrBuffered initState = [] := rfl
  rw [h0, List.nil_append] at h
  refine ⟨h, ?_⟩
  have h2 := congrArg List.length h
  simpa [framedOrBuffered, List.length_append, List.length_flatten] using h2

theorem C1_sample_conservation_witness :
    (run [Event.addPCM16 0 [1, 0], Event.complete 1]).framesPushed.flatten ++
        (run [Event.addPCM16 0 [1, 0], Event.complete 1]).processingBuffer
      = decodedOf [Event.addPCM16 0 [1, 0], Event.complete 1] := by
  refine (C1_sample_conservation _ ?_).1
  intro e he
  rcases List.mem_cons.mp he with rfl | he2
  · rfl
  · rcases List.mem_cons.mp he2 with rfl | he3
    · rfl
    · simp at he3

/-- Claim C2 (PCM decode correctness): `addPCM16` decodes exactly
`⌊chunkLength / 2⌋` samples; the sample at pair index `i` is the
little-endian signed 16-bit integer at bytes `2i, 2i+1` divided by 32768;
and on a 3-byte chunk the trailing odd byte is ignored: from the initial
state, exactly one sample is decoded, it ends up in the Remainder Buffer,
and no frame is produced (the out-of-range access of the phantom final loop
iteration is caught, modelled by the `none` branch of `getInt16LE`, so no
exception reaches the caller). -/
theorem C2_decode (chunk : List Byte) :
    (decodePCM16 chunk).length = chunk.length / 2 ∧
    (∀ i, i < chunk.length / 2 → ∃ b0 b1 : Byte,
      chunk.get? (2 * i) = some b0 ∧ chunk.get? (2 * i + 1) = some b1 ∧
      (decodePCM16 chunk).get? i = some ((int16OfLE b0 b1 : ℚ) / 32768)) ∧
    (∀ b0 b1 b2 : Byte,
      (run [Event.addPCM16 0 [b0, b1, b2]]).processingBuffer
        = [(int16OfLE b0 b1 : ℚ) / 32768] ∧
      (run [Event.addPCM16 0 [b0, b1, b2]]).framesPushed = []) := by
  refine ⟨by simp [decodePCM16], ?_, ?_⟩
  · intro i hi
    have h0 : 2 * i < chunk.length := by omega
    have h1 : 2 * i + 1 < chunk.length := by omega
    cases hg0 : chunk.get? (2 * i) with
    | none =>
      have := List.get?_eq_none.mp hg0
      omega
    | some b0 =>
      cases hg1 : chunk.get? (2 * i + 1) with
      | none =>
        have := List.get?_eq_none.mp hg1
        omega
      | some b1 =>
        refine ⟨b0, b1, rfl, rfl, ?_⟩
        unfold decodePCM16
        rw [List.get?_map, List.get?_range hi, Option.map_some']
        unfold getInt16LE
        rw [hg0, hg1]
  · intro b0 b1 b2
    have hdec : decodePCM16 [b0, b1, b2] = [(int16OfLE b0 b1 : ℚ) / 32768] := by
      simp [decodePCM16, getInt16LE, List.range_succ, List.range_zero]
    have hrun : run [Event.addPCM16 0 [b0, b1, b2]]
        = addPCM16 0 [b0, b1, b2] initState := rfl
    obtain ⟨hf, hb⟩ := addPCM16_assembled 0 [b0, b1, b2] initState
    have hsl : sliceFrames (initState.processingBuffer ++ decodePCM16 [b0, b1, b2])
        = ([], [(int16OfLE b0 b1 : ℚ) / 32768]) := by
      rw [show initState.processingBuffer = [] from rfl, List.nil_append, hdec]
      exact sliceFrames_small _ (by simp [bufferSize])
    constructor
    · rw [hrun, hb, hsl]
    · rw [hrun, hf, hsl]
      rfl

theorem C2_decode_witness :
    ∃ b0 b1 : Byte, ([1, 0, 5] : List Byte).get? (2 * 0) = some b0 ∧
      ([1, 0, 5] : List Byte).get? (2 * 0 + 1) = some b1 ∧
      (decodePCM16 [1, 0, 5]).get? 0 = some ((int16OfLE b0 b1 : ℚ) / 32768) :=
  (C2_decode [1, 0, 5]).2.1 0 (by norm_num)

/-- Claim C3 (frame slicing and scheduler activation): from the idle
initial state, feeding `2 × FRAME_SAMPLES` bytes in one `addPCM16` call
pushes exactly one Frame (of `FRAME_SAMPLES = 7680` samples) onto the
Playback Queue and leaves the Remainder Buffer empty; feeding
`FRAME_SAMPLES + k` samples (`0 < k < FRAME_SAMPLES`) pushes exactly one
Frame of `FRAME_SAMPLES` samples and leaves a Remainder Buffer of length
`k`; and an `addPCM16` call made while not playing sets `isPlaying` and
initializes the Scheduling Cursor to `now + 0.1` before handing the state
to the scheduler (`scheduleNextBuffer`). -/
theorem C3_frame_slicing :
    (∀ (now : ℚ) (chunk : List Byte), chunk.length = 2 * bufferSize →
      (addPCM16 now chunk initState).framesPushed = [decodePCM16 chunk] ∧
      (decodePCM16 chunk).length = bufferSize ∧
      (addPCM16 now chunk initState).processingBuffer = []) ∧
    (∀ (now : ℚ) (chunk : List Byte) (k : ℕ), 0 < k → k < bufferSize →
      chunk.length = 2 * (bufferSize + k) →
      (addPCM16 now chunk initState).framesPushed
        = [(decodePCM16 chunk).take bufferSize] ∧
      ((decodePCM16 chunk).take bufferSize).length = bufferSize ∧
      (addPCM16 now chunk initState).processingBuffer
        = (decodePCM16 chunk).drop bufferSize ∧
      ((addPCM16 now chunk initState).processingBuffer).length = k) ∧
    (∀ (now : ℚ) (chunk : List Byte) (s : AudioStreamer), s.isPlaying = false →
      (activate now (assemble chunk s)).isPlaying = true ∧
      (activate now (assemble chunk s)).scheduledTime = now + initialBufferTime ∧
      addPCM16 now chunk s = scheduleNextBuffer now (activate now (assemble chunk s))) := by
  refine ⟨?_, ?_, ?_⟩
  · intro now chunk hlen
    have hdl : (decodePCM16 chunk).length = bufferSize := by
      simp only [decodePCM16, List.length_map, List.length_range, hlen]
      omega
    obtain ⟨hf, hb⟩ := addPCM16_assembled now chunk initState
    have hsl : sliceFrames (initState.processingBuffer ++ decodePCM16 chunk)
        = ([decodePCM16 chunk], []) := by
      rw [show initState.processingBuffer = [] from rfl, List.nil_append]
      exact sliceFrames_exact _ hdl
    refine ⟨?_, hdl, ?_⟩
    · rw [hf, hsl]
      rfl
    · rw [hb, hsl]
  · intro now chunk k hk0 hk1 hlen
    have hdl : (decodePCM16 chunk).length = bufferSize + k := by
      simp only [decodePCM16, List.length_map, List.length_range, hlen]
      omega
    obtain ⟨hf, hb⟩ := addPCM16_assembled now chunk initState
    have hsl : sliceFrames (initState.processingBuffer ++ decodePCM16 chunk)
        = ([(decodePCM16 chunk).take bufferSize], (decodePCM16 chunk).drop bufferSize) := by
      rw [show initState.processingBuffer = [] from rfl, List.nil_append]
      exact sliceFrames_one _ k hdl hk1
    refine ⟨?_, ?_, ?_, ?_⟩
    · rw [hf, hsl]
      rfl
    · rw [List.length_take]
      omega
    · rw [hb, hsl]
    · rw [hb, hsl, List.length_drop]
      omega
  · intro now chunk s hp
    refine ⟨rfl, rfl, ?_⟩
    unfold addPCM16
    dsimp only
    rw [if_neg (by simp [show (assemble chunk s).isPlaying = false from hp])]

theorem C3_frame_slicing_witness :
    (addPCM16 0 (List.replicate (2 * bufferSize) (0 : Byte)) initState).processingBuffer
        = [] ∧
    ((addPCM16 0 (List.replicate (2 * (bufferSize + 1)) (0 : Byte))
        initState).processingBuffer).length = 1 ∧
    addPCM16 0 [] initState = scheduleNextBuffer 0 (activate 0 (assemble [] initState)) :=
  ⟨(C3_frame_slicing.1 0 _ (by simp)).2.2,
   (C3_frame_slicing.2.1 0 _ 1 (by omega) (by norm_num [bufferSize]) (by simp)).2.2.2,
   (C3_frame_slicing.2.2 0 [] initState rfl).2.2⟩

/-- Claim C4 (monotonic scheduling): in every `scheduleNextBuffer`
invocation the newly submitted frames form a chain in which each start time
equals `max (Scheduling Cursor) now` (so every submitted start time is
`≥ now`, the output clock time at submission), and the Scheduling Cursor
never decreases across the invocation; moreover, while a playback session
is active (`isPlaying = true`), no external re-entry other than `resume()`
and `stop()` ever decreases the Scheduling Cursor. -/
theorem C4_monotonic_scheduling :
    (∀ (now : ℚ) (s : AudioStreamer),
      ∃ ns, (scheduleNextBuffer now s).submissions = s.submissions ++ ns ∧
        SubChain s.scheduledTime now ns ∧
        ∀ sub ∈ ns, now ≤ sub.startTime) ∧
    (∀ (now : ℚ) (s : AudioStreamer),
      s.scheduledTime ≤ (scheduleNextBuffer now s).scheduledTime) ∧
    (∀ (e : Event) (s : AudioStreamer), s.isPlaying = true →
      (∀ t, e ≠ Event.resume t) → (∀ t, e ≠ Event.stop t) →
      s.scheduledTime ≤ (step e s).scheduledTime) := by
  refine ⟨?_, scheduleNextBuffer_cursor_mono, ?_⟩
  · intro now s
    obtain ⟨ns, h1, h2⟩ := scheduleNextBuffer_chain now s
    exact ⟨ns, h1, h2, SubChain_start_ge now ns s.scheduledTime h2⟩
  · intro e s hp hnr hnst
    cases e with
    | addPCM16 now chunk =>
      show s.scheduledTime ≤ (addPCM16 now chunk s).scheduledTime
      unfold addPCM16
      dsimp only
      rw [if_pos (show (assemble chunk s).isPlaying = true from hp)]
      exact le_rfl
    | complete now =>
      show s.scheduledTime ≤ (complete now s).scheduledTime
      unfold complete
      dsimp only
      split
      · split
        · exact scheduleNextBuffer_cursor_mono now (completeFlush s)
        · exact le_rfl
      · exact le_rfl
    | stop now => exact absurd rfl (hnst now)
    | resume now => exact absurd rfl (hnr now)
    | pollFire now =>
      show s.scheduledTime ≤ (if s.checkInterval = true then _ else s).scheduledTime
      split
      · split
        · exact scheduleNextBuffer_cursor_mono now s
        · exact le_rfl
      · exact le_rfl
    | timeoutFire now =>
      show s.scheduledTime ≤ (if 0 < s.pendingTimeouts then _ else s).scheduledTime
      split
      · exact scheduleNextBuffer_cursor_mono now
          { s with pendingTimeouts := s.pendingTimeouts - 1 }
      · exact le_rfl
    | sourceEnded id =>
      show s.scheduledTime ≤ (handleOnEnded id s).scheduledTime
      unfold handleOnEnded
      split
      · exact le_rfl
      · exact le_rfl

theorem C4_monotonic_scheduling_witness :
    (activate 0 initState).scheduledTime ≤
      (step (Event.complete 1) (activate 0 initState)).scheduledTime :=
  C4_monotonic_scheduling.2.2 (Event.complete 1) (activate 0 initState) rfl
    (fun t => by simp) (fun t => by simp)

/-- Claim C5 counterexample: a full session (one chunk of one sample,
`complete()` flushing it, the frame playing out and ending) fires
`onComplete` exactly once (`completeCount = 1`); but two further
`complete()` calls on this already-completed, fully drained session — with
no intervening `resume()` — each fire `onComplete` again
(`completeCount = 3`), because `complete()` with an empty Remainder Buffer
invokes the callback unconditionally.  This refutes the claim that
`onComplete` must not fire again. -/
theorem C5_counterexample :
    (run [Event.addPCM16 0 [0, 0], Event.complete 0,
        Event.sourceEnded 0]).completeCount = 1 ∧
    (run [Event.addPCM16 0 [0, 0], Event.complete 0, Event.sourceEnded 0,
        Event.complete 1, Event.complete 1]).completeCount = 3 := by
  constructor <;>
    norm_num [run, runFrom, step, addPCM16, assemble, activate,
      scheduleNextBuffer, drainLoopF, drainIter, armMarker, handleOnEnded,
      complete, completeFlush, decodePCM16, getInt16LE, int16OfLE,
      sliceFrames, sliceFramesF, bufferSize, initState, initialBufferTime,
      SCHEDULE_AHEAD_TIME, frameDuration, sampleRate]

/-- Claim C5 amended: the end-of-queue marker path fires `onComplete` at
most once per armed marker — a repeated completion notification for the
same source does not fire it again, because the handler clears the marker
before invoking the callback — but `complete()` invokes `onComplete`
unconditionally whenever the Remainder Buffer is empty, so each additional
`complete()` call on a completed session fires the callback again. -/
theorem C5_single_completion_amended :
    (∀ (id : ℕ) (s : AudioStreamer),
      handleOnEnded id (handleOnEnded id s) = handleOnEnded id s) ∧
    (∀ (now : ℚ) (s : AudioStreamer), s.processingBuffer = [] →
      (complete now s).completeCount = s.completeCount + 1) := by
  constructor
  · intro id s
    unfold handleOnEnded
    by_cases h : id ∈ s.attachedHandlers ∧ s.audioQueue = [] ∧
        s.endOfQueueAudioSource = some id
    · rw [if_pos h, if_neg (by simp)]
    · rw [if_neg h, if_neg h]
  · intro now s h
    unfold complete
    rw [if_neg (by simp [h])]

theorem C5_single_completion_amended_witness :
    (complete 0 initState).completeCount = initState.completeCount + 1 :=
  C5_single_completion_amended.2 0 initState rfl

/-- Claim C6 counterexample: feed one 2-byte chunk from idle — the drain
loop finds no full frame and arms a one-shot `setTimeout` re-arm timer
(`pendingTimeouts = 1`).  Calling `stop()` does not cancel it (the source
never stores the `setTimeout` handle), so after `stop()` a re-arm timer is
still armed, refuting the part of the claim stating that any armed
poll/re-arm timer is cancelled. -/
theorem C6_counterexample :
    (stop 1 (run [Event.addPCM16 0 [0, 0]])).pendingTimeouts = 1 := by
  decide

/-- Claim C6 amended: immediately after `stop()`, `isPlaying` is false,
`isStreamComplete` is true, the Playback Queue and Remainder Buffer are
empty, the Scheduling Cursor equals the clock time at the stop call, and
the poll interval timer is cancelled; pending one-shot re-arm timers are
NOT cancelled (no handle for them is stored), but when such a timer fires
afterwards, the drain submits nothing and pushes no frames — no decoding
or scheduling occurs until a further `addPCM16` call. -/
theorem C6_stop_semantics_amended (now : ℚ) (s : AudioStreamer) :
    (stop now s).isPlaying = false ∧
    (stop now s).isStreamComplete = true ∧
    (stop now s).audioQueue = [] ∧
    (stop now s).processingBuffer = [] ∧
    (stop now s).scheduledTime = now ∧
    (stop now s).checkInterval = false ∧
    (stop now s).pendingTimeouts = s.pendingTimeouts ∧
    (∀ now2 : ℚ,
      (scheduleNextBuffer now2 (stop now s)).submissions
        = (stop now s).submissions ∧
      (scheduleNextBuffer now2 (stop now s)).framesPushed
        = (stop now s).framesPushed) := by
  refine ⟨rfl, rfl, rfl, rfl, rfl, rfl, rfl, ?_⟩
  intro now2
  have hnil : (stop now s).audioQueue = [] := rfl
  have hd := drainLoopF_queue_nil ((stop now s).audioQueue.length) now2 _ hnil
  obtain ⟨-, p2, -, -, -, p6, -⟩ := scheduleNextBuffer_pres now2 (stop now s)
  exact ⟨p6.trans (by rw [hd]), p2⟩

/-- Claim C7 (complete semantics): `complete()` sets `isStreamComplete`;
if the Remainder Buffer is non-empty its contents are flushed as one final
(possibly short) Frame appended to the queue (the Remainder Buffer is
cleared) and, when playing, the call is exactly a drain of the flushed
state; if the Remainder Buffer and queue are empty, `onComplete` fires
synchronously within the call and there is no scheduling activity (no
submission, no cursor movement, queue still empty). -/
theorem C7_complete_semantics (now : ℚ) (s : AudioStreamer) :
    (complete now s).isStreamComplete = true ∧
    (0 < s.processingBuffer.length →
      (complete now s).framesPushed = s.framesPushed ++ [s.processingBuffer] ∧
      (complete now s).processingBuffer = [] ∧
      (s.isPlaying = true →
        complete now s = scheduleNextBuffer now (completeFlush s))) ∧
    (s.processingBuffer = [] → s.audioQueue = [] →
      (complete now s).completeCount = s.completeCount + 1 ∧
      (complete now s).submissions = s.submissions ∧
      (complete now s).scheduledTime = s.scheduledTime ∧
      (complete now s).audioQueue = []) := by
  unfold complete
  dsimp only
  by_cases h : 0 < s.processingBuffer.length
  · rw [if_pos h]
    by_cases hp : (completeFlush s).isPlaying = true
    · rw [if_pos hp]
      obtain ⟨p1, p2, -, p4, -⟩ := scheduleNextBuffer_pres now (completeFlush s)
      refine ⟨p4.trans rfl, fun _ => ⟨p2.trans rfl, p1.trans rfl, fun _ => rfl⟩, ?_⟩
      intro h1
      rw [h1] at h
      simp at h
    · rw [if_neg hp]
      refine ⟨rfl, fun _ => ⟨rfl, rfl, fun h2 => absurd h2 hp⟩, ?_⟩
      intro h1
      rw [h1] at h
      simp at h
  · rw [if_neg h]
    refine ⟨rfl, fun h2 => absurd h2 h, ?_⟩
    intro h1 h2
    exact ⟨rfl, rfl, rfl, h2⟩

theorem C7_complete_semantics_witness :
    (complete 0 { initState with processingBuffer := [0] }).processingBuffer = [] ∧
    (complete 0 initState).completeCount = initState.completeCount + 1 :=
  ⟨((C7_complete_semantics 0 _).2.1 (by simp)).2.1,
   ((C7_complete_semantics 0 initState).2.2 rfl rfl).1⟩

/-- Claim C8 (end-of-queue marker invariant): the marker is a single field,
so at most one submission is armed at any instant; a completion
notification for a source that is not the currently armed marker is
ignored — it leaves the whole state unchanged, enforced by the identity
comparison in the `onended` closure; and over one drain invocation from a
reachable state, an armed marker either stays armed or is superseded by a
new one whose arming detached the old marker's `onended` hook. -/
theorem C8_marker_invariant (s : AudioStreamer) (hs : Reachable s) :
    (∀ id : ℕ, s.endOfQueueAudioSource ≠ some id → handleOnEnded id s = s) ∧
    (∀ (now : ℚ) (p : ℕ), s.endOfQueueAudioSource = some p →
      (scheduleNextBuffer now s).endOfQueueAudioSource = some p ∨
      (p ∉ (scheduleNextBuffer now s).attachedHandlers ∧
        ∃ q, (scheduleNextBuffer now s).endOfQueueAudioSource = some q ∧ q ≠ p)) := by
  constructor
  · intro id h
    unfold handleOnEnded
    rw [if_neg (fun hc => h hc.2.2)]
  · intro now p hm
    have hinv := reachable_markerInv s hs
    obtain ⟨-, -, -, -, -, -, q7, q8, -⟩ := scheduleNextBuffer_pres now s
    rcases drainLoopF_supersede s.audioQueue.length now s p hm hinv with h | ⟨h1, q, h2, h3⟩
    · exact Or.inl (q7.trans h)
    · exact Or.inr ⟨by rw [q8]; exact h1, q, q7.trans h2, h3⟩

theorem C8_marker_invariant_witness :
    handleOnEnded 5 initState = initState :=
  (C8_marker_invariant initState Reachable.init).1 5 (by simp [initState])

theorem lookupWorklet_append_self (reg : WorkletRegistry) (name : String)
    (g : WorkletGraphM) (h : lookupWorklet reg name = none) :
    lookupWorklet (reg ++ [(name, g)]) name = some g := by
  induction reg with
  | nil => simp [lookupWorklet]
  | cons e rest ih =>
    obtain ⟨n, g0⟩ := e
    simp only [List.cons_append, lookupWorklet] at h ⊢
    by_cases hn : n = name
    · rw [if_pos hn] at h
      exact absurd h (by simp)
    · rw [if_neg hn] at h ⊢
      exact ih h

theorem lookupWorklet_update_self (reg : WorkletRegistry) (name : String)
    (g g0 : WorkletGraphM) (h : lookupWorklet reg name = some g0) :
    lookupWorklet (updateWorklet reg name g) name = some g := by
  induction reg with
  | nil => simp [lookupWorklet] at h
  | cons e rest ih =>
    obtain ⟨n, g1⟩ := e
    simp only [lookupWorklet, updateWorklet] at h ⊢
    by_cases hn : n = name
    · rw [if_pos hn] at h ⊢
      simp only [lookupWorklet]
      rw [if_pos hn]
    · rw [if_neg hn] at h ⊢
      simp only [lookupWorklet]
      rw [if_neg hn]
      exact ih h

/-- Claim C9 counterexample: `addWorklet` on an unregistered name whose
module load fails does re-raise the error (first component `true`), but the
registry afterwards DOES contain an entry for the name (the handler,
node-less), because the entry is created before the load is attempted —
refuting the part of the claim stating the registry contains no entry for
that name afterwards. -/
theorem C9_counterexample :
    (addWorklet [] "vumeter-out" 0 true 0).1 = true ∧
    lookupWorklet (addWorklet [] "vumeter-out" 0 true 0).2 "vumeter-out"
      = some { handlers := [0], node := none } ∧
    lookupWorklet (addWorklet [] "vumeter-out" 0 true 0).2 "vumeter-out" ≠ none := by
  refine ⟨rfl, rfl, ?_⟩
  decide

/-- Claim C9 amended: when loading the processing module for a
not-yet-registered name fails, the error is re-raised to the caller, but
the name is left REGISTERED with the new handler and no node (the entry is
created before the load attempt); a second `addWorklet` call with an
already-registered name appends the new handler to the existing handler
list (and does not recreate the node or re-raise). -/
theorem C9_worklet_load_fault (reg : WorkletRegistry) (name : String)
    (handler : ℕ) (loadFails : Bool) (freshNode : ℕ) :
    (lookupWorklet reg name = none →
      (addWorklet reg name handler true freshNode).1 = true ∧
      lookupWorklet (addWorklet reg name handler true freshNode).2 name
        = some { handlers := [handler], node := none }) ∧
    (∀ g, lookupWorklet reg name = some g →
      (addWorklet reg name handler loadFails freshNode).1 = false ∧
      lookupWorklet (addWorklet reg name handler loadFails freshNode).2 name
        = some { g with handlers := g.handlers ++ [handler] }) := by
  constructor
  · intro h
    unfold addWorklet
    rw [h]
    exact ⟨rfl, lookupWorklet_append_self reg name _ h⟩
  · intro g h
    unfold addWorklet
    rw [h]
    exact ⟨rfl, lookupWorklet_update_self reg name _ g h⟩

theorem C9_worklet_load_fault_witness :
    (addWorklet [] "vumeter-out" 0 true 0).1 = true ∧
    (addWorklet [("vumeter-out", { handlers := [0], node := none })]
        "vumeter-out" 1 false 0).1 = false :=
  ⟨((C9_worklet_load_fault [] "vumeter-out" 0 true 0).1 rfl).1,
   ((C9_worklet_load_fault [("vumeter-out", { handlers := [0], node := none })]
      "vumeter-out" 1 false 0).2 { handlers := [0], node := none } (by decide)).1⟩

/-- Claim C10 (implicit; stop does not disarm the marker): `stop()` leaves
`endOfQueueAudioSource` and the attached `onended` hooks untouched; since
`stop()` also empties the Playback Queue, a later completion notification
from the still-armed marker source passes both the queue-empty check and
the identity check, so `onComplete` fires even though the session was
stopped rather than drained. -/
theorem C10_stop_marker_fires (s : AudioStreamer) (now : ℚ) (id : ℕ)
    (hm : s.endOfQueueAudioSource = some id) :
    (stop now s).endOfQueueAudioSource = some id ∧
    (stop now s).attachedHandlers = s.attachedHandlers ∧
    (id ∈ s.attachedHandlers →
      (handleOnEnded id (stop now s)).completeCount = s.completeCount + 1 ∧
      (handleOnEnded id (stop now s)).endOfQueueAudioSource = none) := by
  refine ⟨hm, rfl, ?_⟩
  intro hatt
  unfold handleOnEnded
  rw [if_pos ⟨hatt, rfl, hm⟩]
  exact ⟨rfl, rfl⟩

theorem C10_stop_marker_fires_witness :
    (handleOnEnded 0 (stop 1 stoppedWithMarker)).completeCount = 1 :=
  ((C10_stop_marker_fires stoppedWithMarker 1 0 rfl).2.2 (by decide)).1
